import Mathlib

/-!
Verification development for the 15-question wizard application
(question validator, PII detector, wizard state machine, draft storage,
output generator).

Modelling conventions for the TypeScript source:
* JavaScript strings are modelled as `List Char` (`JStr`); `String.prototype.length`,
  `slice`, `includes`, `startsWith` become list operations.  JS `.length` counts
  UTF-16 code units while we count code points; every string literal appearing in
  the source and in the claims lies in the Basic Multilingual Plane, where the two
  coincide.
* JS `number` is modelled as `Int` (no claim depends on fractional values or NaN
  except `parseFloat` success, which is modelled directly on the string).
* `Date` values are modelled as `Int` milliseconds since the epoch; ISO-8601
  formatting is an injective re-presentation of that integer, so "equality modulo
  timestamp formatting" is equality of the integer model.
* `Record<string, T>` objects are association lists `List (JStr × T)` with unique
  keys (as guaranteed for JS objects and for localStorage); an object-spread
  update `\x7b...m, [k]: v\x7d` replaces in place or appends (`setAssoc`).
* Exceptions are modelled with `Except`; a refusal returned as a value is `.ok`.
-/

/-- Model of a JavaScript string: a list of characters. -/
abbrev JStr := List Char

/-- Coerce a Lean string literal into the JS-string model. -/
def js (s : String) : JStr := s.data

/-- Whitespace recognised by the model of `String.prototype.trim` (space, tab,
newline, carriage return, ideographic space; the claims only exercise these). -/
def isJsSpace (c : Char) : Bool :=
  c = ' ' || c = '\t' || c = '\n' || c = '\r' || c = '　'

/-- Model of `s.trim()`. -/
def jsTrim (s : JStr) : JStr :=
  ((s.dropWhile isJsSpace).reverse.dropWhile isJsSpace).reverse

/-- Model of the TS `AnswerValue` union (`string | number | boolean | string[]
| Record<string, unknown>`); a record is represented by its key list, which is
all `AnswerValidator.validateRequired` inspects. -/
inductive AnswerValue where
  | str (s : JStr)
  | num (n : Int)
  | bool (b : Bool)
  | list (l : List JStr)
  | record (keys : List JStr)
deriving DecidableEq

/-- Answer map `Record<string, AnswerValue>` as an association list. -/
abbrev Answers := List (JStr × AnswerValue)

/-- First-match lookup in an association list (JS property access). -/
def lookupAssoc {α : Type} : List (JStr × α) → JStr → Option α
  | [], _ => none
  | (k', v') :: rest, k => if k' = k then some v' else lookupAssoc rest k

/-- Object-spread update `\x7b...m, [k]: v\x7d`: replace the existing key in
place, else append. -/
def setAssoc {α : Type} : List (JStr × α) → JStr → α → List (JStr × α)
  | [], k, v => [(k, v)]
  | (k', v') :: rest, k, v =>
      if k' = k then (k, v) :: rest else (k', v') :: setAssoc rest k v

/-- Model of the TS `ValidationError` record. -/
structure ValidationError where
  field : JStr
  message : JStr
  code : JStr
deriving DecidableEq

/-- Question types of `QuestionDefinition.type`. -/
inductive QType where
  | shortText | longText | singleChoice | multipleChoice | numeric
deriving DecidableEq

/-- Model of the TS `QuestionDefinition` interface (i18n keys omitted: they are
not read by any claim-relevant code path).  `pattern` is the RegExp's `test`
predicate; `options` keeps only the option values, which is all
`validateAnswer` reads; `showIf` is the conditional-visibility predicate. -/
structure QuestionDefinition where
  id : JStr
  layer : Int
  step : Int
  qtype : QType
  required : Bool
  minLength : Option Nat
  maxLength : Option Nat
  pattern : Option (JStr → Bool)
  options : Option (List JStr)
  dependsOn : Option (List JStr)
  showIf : Option (Answers → Bool)

/-- Integer to JS decimal string (`String(n)`). -/
def intToJStr (n : Int) : JStr := (toString n).data

/-- Model of JS `String(value)` on an `AnswerValue` (arrays join with `,`,
plain objects print `[object Object]`). -/
def answerToString : AnswerValue → JStr
  | .str s => s
  | .num n => intToJStr n
  | .bool b => if b then js "true" else js "false"
  | .list l => (l.intersperse (js ",")).flatten
  | .record _ => js "[object Object]"

/-- JS truthiness of a present `AnswerValue` (`''`, `0`, `false` are falsy;
arrays and objects are always truthy). -/
def jsTruthyV : AnswerValue → Bool
  | .str s => !s.isEmpty
  | .num n => n != 0
  | .bool b => b
  | .list _ => true
  | .record _ => true

/-- JS truthiness of a possibly-`undefined` value. -/
def jsTruthy : Option AnswerValue → Bool
  | none => false
  | some v => jsTruthyV v

/-- JS truthiness of a possibly-`undefined` numeric field (`0` is falsy). -/
def jsTruthyNat : Option Nat → Bool
  | none => false
  | some n => n != 0

/-- Source `AnswerValidator.validateRequired` on a present value: non-blank
string, non-empty array, any number (`Int` model has no NaN), any boolean,
object with at least one key. -/
def validateRequiredV : AnswerValue → Bool
  | .str s => (jsTrim s).length > 0
  | .list l => l.length > 0
  | .num _ => true
  | .bool _ => true
  | .record keys => keys.length > 0

/-- Source `AnswerValidator.validateRequired`, with `none` playing
`null`/`undefined`. -/
def validateRequired : Option AnswerValue → Bool
  | none => false
  | some v => validateRequiredV v

/-- Source `AnswerValidator.validateLength`: bounds on the trimmed length,
each bound checked only when defined. -/
def validateLength (value : JStr) (min? max? : Option Nat) : Bool :=
  let length := (jsTrim value).length
  if h : min?.isSome then
    if length < min?.get h then false
    else match max? with
      | some mx => length ≤ mx
      | none => true
  else match max? with
    | some mx => length ≤ mx
    | none => true

/-- Success predicate of JS `parseFloat` as used by `validateNumeric`
(`!isNaN(parseFloat(value))`): after leading whitespace and an optional sign,
the string starts with a digit, a decimal point followed by a digit, or
`Infinity`. -/
def jsParseFloatOk (s : JStr) : Bool :=
  let t := s.dropWhile isJsSpace
  let t := match t with
    | c :: rest => if c = '+' || c = '-' then rest else t
    | [] => t
  if (js "Infinity").isPrefixOf t then true
  else match t with
    | '.' :: c :: _ => c.isDigit
    | c :: _ => c.isDigit
    | [] => false

/-- Source `AnswerValidator.validateNumeric` on a present value. -/
def validateNumericV : AnswerValue → Bool
  | .num _ => true
  | .str s => jsParseFloatOk s
  | _ => false

/-- Source `AnswerValidator.validateChoice`: a string must be an option value,
an array must consist of option values. -/
def validateChoice : AnswerValue → List JStr → Bool
  | .str s, options => options.contains s
  | .list l, options => l.all (fun v => options.contains v)
  | _, _ => false

/-- Source `QuestionValidator.validateAnswer` (part_007 lines 163-261),
translated clause by clause: required check; early return on an empty value;
length, pattern, type-specific and dependency checks; and the final
conditional-visibility override, which discards the collected errors when
`showIf` evaluates false.  Note that the early return on an empty value fires
before the visibility override. -/
def validateAnswer (q : QuestionDefinition) (value : Option AnswerValue)
    (allAnswers : Option Answers) : List ValidationError :=
  let errs0 : List ValidationError :=
    if q.required && !(validateRequired value) then
      [⟨q.id, js "validation.required", js "REQUIRED"⟩]
    else []
  match value with
  | none => errs0
  | some v =>
    if !(validateRequiredV v) then errs0
    else
      let stringValue := answerToString v
      let errs1 := errs0 ++
        (if jsTruthyNat q.minLength || jsTruthyNat q.maxLength then
          if !(validateLength stringValue q.minLength q.maxLength) then
            [⟨q.id,
              if jsTruthyNat q.minLength then js "validation.minLength"
              else js "validation.maxLength",
              js "LENGTH"⟩]
          else []
        else [])
      let errs2 := errs1 ++
        (match q.pattern, v with
          | some p, .str s =>
              if !(p s) then [⟨q.id, js "validation.pattern", js "PATTERN"⟩] else []
          | _, _ => [])
      let errs3 := errs2 ++
        (match q.qtype with
          | .numeric =>
              if !(validateNumericV v) then
                [⟨q.id, js "validation.numeric", js "TYPE"⟩]
              else []
          | .singleChoice | .multipleChoice =>
              (match q.options with
                | some optionValues =>
                    if !(validateChoice v optionValues) then
                      [⟨q.id, js "validation.invalidChoice", js "CHOICE"⟩]
                    else []
                | none => [])
          | _ => [])
      let errs4 := errs3 ++
        (match q.dependsOn, allAnswers with
          | some deps, some ans =>
              if (deps.filter
                    (fun depId => !(validateRequired (lookupAssoc ans depId)))).length > 0 then
                [⟨q.id, js "validation.dependencyNotMet", js "DEPENDENCY"⟩]
              else []
          | _, _ => [])
      match q.showIf, allAnswers with
      | some p, some ans => if !(p ans) then [] else errs4
      | _, _ => errs4

/-- Source `QuestionValidator.validateAllAnswers`: collect each question's
non-empty error list into a map keyed by question id. -/
def validateAllAnswers (questions : List QuestionDefinition) (answers : Answers) :
    List (JStr × List ValidationError) :=
  questions.foldl
    (fun allErrors q =>
      let errors := validateAnswer q (lookupAssoc answers q.id) (some answers)
      if errors.length > 0 then allErrors ++ [(q.id, errors)] else allErrors)
    []

/-- Regex token for the fixed PII patterns.  Every repetition in the source
patterns ranges over a single character class, and every alternation is
between two literals, so this restricted shape captures them exactly. -/
inductive RTok where
  | lit (s : JStr)
  | lits (a b : JStr)
  | cls (p : Char → Bool) (lo : Nat) (hi : Option Nat)
  | wb

/-- Word characters of JS regex `\b` (`[A-Za-z0-9_]`). -/
def isWordCharO : Option Char → Bool
  | none => false
  | some c => c.isAlpha || c.isDigit || c = '_'

/-- Last character consumed when `k` characters of `cs` were consumed (used to
track the left context of a word boundary). -/
def lastConsumed (prev : Option Char) (cs : JStr) (k : Nat) : Option Char :=
  if k = 0 then prev else (cs.take k).getLast?

/-- Match one token against the input at the current position; results are the
possible `(remaining input, last consumed char)` pairs in JS backtracking
priority order (greedy repetition: longest first; alternation: left first). -/
def matchTok : RTok → Option Char → JStr → List (JStr × Option Char)
  | .lit s, prev, cs =>
      if s.isPrefixOf cs then [(cs.drop s.length, lastConsumed prev cs s.length)] else []
  | .lits a b, prev, cs =>
      (if a.isPrefixOf cs then [(cs.drop a.length, lastConsumed prev cs a.length)] else []) ++
      (if b.isPrefixOf cs then [(cs.drop b.length, lastConsumed prev cs b.length)] else [])
  | .cls p lo hi, prev, cs =>
      let avail := (cs.takeWhile p).length
      let most := match hi with
        | some h => min avail h
        | none => avail
      if most < lo then []
      else ((List.range (most + 1 - lo)).map (fun j => most - j)).map
        (fun k => (cs.drop k, lastConsumed prev cs k))
  | .wb, prev, cs =>
      if isWordCharO prev != isWordCharO cs.head? then [(cs, prev)] else []

/-- Match a token sequence; result list is in backtracking priority order, so
its head is the match JS backtracking finds first. -/
def matchToks : List RTok → Option Char → JStr → List (JStr × Option Char)
  | [], prev, cs => [(cs, prev)]
  | t :: ts, prev, cs =>
      (matchTok t prev cs).flatMap (fun pr => matchToks ts pr.2 pr.1)

/-- Repeated `pattern.exec` on a global regex: scan positions left to right
from `i`, record each first match as `(start, length)` and resume at its end
(`lastIndex` semantics).  `fuel` is a structural-recursion bound; the caller
passes `full.length + 1 - i`, which suffices because the position strictly
increases at every step (all seven source patterns consume at least one
character per match, and a zero-length match still advances the scan). -/
def execAllFuel (re : List RTok) (full : JStr) : Nat → Nat → List (Nat × Nat)
  | 0, _ => []
  | fuel + 1, i =>
      if i ≤ full.length then
        let prev := if i = 0 then none else (full.take i).getLast?
        match (matchToks re prev (full.drop i)).head? with
        | some pr =>
            let len := (full.drop i).length - pr.1.length
            (i, len) :: execAllFuel re full fuel (i + max len 1)
        | none => execAllFuel re full fuel (i + 1)
      else []

/-- All matches of a pattern in a string, in order. -/
def execAll (re : List RTok) (full : JStr) : List (Nat × Nat) :=
  execAllFuel re full (full.length + 1) 0

/-- Character class `[A-Za-z0-9._%+-]` (email local part). -/
def emailLocalChar (c : Char) : Bool :=
  c.isAlpha || c.isDigit || c = '.' || c = '_' || c = '%' || c = '+' || c = '-'

/-- Character class `[A-Za-z0-9.-]` (email domain). -/
def emailDomainChar (c : Char) : Bool :=
  c.isAlpha || c.isDigit || c = '.' || c = '-'

/-- Character class `[A-Z|a-z]` (email TLD; the source class literally
contains `|`). -/
def emailTldChar (c : Char) : Bool :=
  c.isAlpha || c = '|'

/-- Character class `[-\s]` (dash or whitespace). -/
def dashSpaceChar (c : Char) : Bool :=
  c = '-' || isJsSpace c

/-- Source pattern `\b[A-Za-z0-9._%+-]+@[A-Za-z0-9.-]+\.[A-Z|a-z]{2,}\b`. -/
def emailRe : List RTok :=
  [.wb, .cls emailLocalChar 1 none, .lit (js "@"), .cls emailDomainChar 1 none,
   .lit (js "."), .cls emailTldChar 2 none, .wb]

/-- Source pattern `(\+81|0)\d{1,4}[-\s]?\d{1,4}[-\s]?\d{4}`. -/
def phoneRe : List RTok :=
  [.lits (js "+81") (js "0"), .cls Char.isDigit 1 (some 4), .cls dashSpaceChar 0 (some 1),
   .cls Char.isDigit 1 (some 4), .cls dashSpaceChar 0 (some 1), .cls Char.isDigit 4 (some 4)]

/-- Source pattern `\d{3}-\d{4}-\d{4}`. -/
def phoneAltRe : List RTok :=
  [.cls Char.isDigit 3 (some 3), .lit (js "-"), .cls Char.isDigit 4 (some 4),
   .lit (js "-"), .cls Char.isDigit 4 (some 4)]

/-- Source pattern `(〒|〒)\d{3}[-\s]?\d{4}` (both alternatives denote the
same postal-mark character U+3012). -/
def addressRe : List RTok :=
  [.lits (js "〒") (js "〒"), .cls Char.isDigit 3 (some 3), .cls dashSpaceChar 0 (some 1),
   .cls Char.isDigit 4 (some 4)]

/-- Source pattern `\b\d{4}[-\s]?\d{4}[-\s]?\d{4}[-\s]?\d{4}\b`. -/
def creditCardRe : List RTok :=
  [.wb, .cls Char.isDigit 4 (some 4), .cls dashSpaceChar 0 (some 1),
   .cls Char.isDigit 4 (some 4), .cls dashSpaceChar 0 (some 1),
   .cls Char.isDigit 4 (some 4), .cls dashSpaceChar 0 (some 1),
   .cls Char.isDigit 4 (some 4), .wb]

/-- Source pattern `\d{4}-\d{2}-\d{4}`. -/
def ssnJPRe : List RTok :=
  [.cls Char.isDigit 4 (some 4), .lit (js "-"), .cls Char.isDigit 2 (some 2),
   .lit (js "-"), .cls Char.isDigit 4 (some 4)]

/-- Source pattern `\d{12}`. -/
def personalNumberRe : List RTok :=
  [.cls Char.isDigit 12 (some 12)]

/-- The `PII_PATTERNS` table, in the source's iteration order. -/
def piiPatterns : List (JStr × List RTok) :=
  [(js "email", emailRe), (js "phone", phoneRe), (js "phoneAlt", phoneAltRe),
   (js "address", addressRe), (js "creditCard", creditCardRe),
   (js "socialSecurityJP", ssnJPRe), (js "personalNumber", personalNumberRe)]

/-- A detected PII occurrence (source `locations` entries). -/
structure PIILocation where
  kind : JStr
  start : Nat
  stop : Nat
  value : JStr
deriving DecidableEq

/-- Category mapping applied per match: `email`, any `phone*`, `address`,
`creditCard`, and everything else `personalId`. -/
def piiCategory (patternName : JStr) : JStr :=
  if patternName = js "email" then js "email"
  else if patternName = js "phone" || patternName = js "phoneAlt" then js "phone"
  else if patternName = js "address" then js "address"
  else if patternName = js "creditCard" then js "creditCard"
  else js "personalId"

/-- Insert into a JS `Set` modelled as an insertion-ordered duplicate-free
list. -/
def setInsert (l : List JStr) (x : JStr) : List JStr :=
  if l.contains x then l else l ++ [x]

/-- Result shape of `PIIDetector.detectPII`; the floating-point confidence is
modelled as a rational. -/
structure PIIResult where
  hasPII : Bool
  types : List JStr
  confidence : Rat
  locations : List PIILocation
deriving DecidableEq

/-- Source `PIIDetector.detectPII` (part_007 lines 57-106): run every pattern,
collect match locations, derive the category set, and score
`min(locations.length * 0.3, 1)` when anything matched. -/
def detectPII (text : JStr) : PIIResult :=
  let locations := piiPatterns.flatMap
    (fun pat => (execAll pat.2 text).map
      (fun m => ⟨pat.1, m.1, m.1 + m.2, (text.drop m.1).take m.2⟩))
  let types := locations.foldl (fun acc loc => setInsert acc (piiCategory loc.kind)) []
  let hasPII := locations.length > 0
  let confidence : Rat := if hasPII then min (locations.length * (3 / 10 : Rat)) 1 else 0
  ⟨hasPII, types, confidence, locations⟩

/-- Source `getLayerFromStep` (part_009 lines 172-176). -/
def getLayerFromStep (step : Int) : Int :=
  if step ≤ 5 then 1 else if step ≤ 10 then 2 else 3

/-- Source `ConstitutionalValidator.validateLayerProgression` (part_007 lines
26-36): look the layer up in the range table and test the step; a layer other
than 1, 2, 3 destructures `undefined` and throws, modelled as `none`. -/
def validateLayerProgression (currentStep currentLayer : Int) : Option Bool :=
  if currentLayer = 1 then some (decide (1 ≤ currentStep ∧ currentStep ≤ 5))
  else if currentLayer = 2 then some (decide (6 ≤ currentStep ∧ currentStep ≤ 10))
  else if currentLayer = 3 then some (decide (11 ≤ currentStep ∧ currentStep ≤ 15))
  else none

/-- Model of the TS `WizardState` record (timestamps as epoch milliseconds;
the schema's own `validationErrors` field is a map to message-string lists). -/
structure WizardData where
  id : JStr
  currentStep : Int
  currentLayer : Int
  answers : Answers
  startedAt : Int
  lastModified : Int
  isComplete : Bool
  draftSaved : Bool
  validationErrors : List (JStr × List JStr)
deriving DecidableEq

/-- State owned by the `useWizardState` hook: the wizard record plus the
hook-level validation-error map (question id to error list). -/
structure HookState where
  wizard : WizardData
  validationErrors : List (JStr × List ValidationError)
deriving DecidableEq

/-- Source `validateConstitutionalCompliance` on a state: the layer-progression
check must pass (the auto-save-interval check holds for the default 2000 ms
interval used throughout and is therefore constant). -/
def stateCompliant (d : WizardData) : Bool :=
  validateLayerProgression d.currentStep d.currentLayer = some true

/-- Initial wizard state (part_009 lines 63-73): fresh id, step 1, layer 1,
empty answers, incomplete. -/
def initState (id : JStr) (now : Int) : WizardData :=
  ⟨id, 1, 1, [], now, now, false, false, []⟩

/-- Source `setAnswer` (part_009 lines 179-206): write the answer, refresh
`lastModified`, clear `draftSaved`, check constitutional compliance of the new
state (a violation throws, modelled as `.error`), then re-validate the answer
for that question — against the previous answer map, exactly as the source's
closure over `wizardState.answers` does. -/
def setAnswer (questions : List QuestionDefinition) (questionId : JStr)
    (value : AnswerValue) (now : Int) (hs : HookState) : Except JStr HookState :=
  let newWizard := { hs.wizard with
    answers := setAssoc hs.wizard.answers questionId value,
    lastModified := now, draftSaved := false }
  if stateCompliant newWizard then
    match questions.find? (fun q => q.id = questionId) with
    | some q =>
        let errors := validateAnswer q (some value) (some hs.wizard.answers)
        Except.ok ⟨newWizard, setAssoc hs.validationErrors questionId errors⟩
    | none => Except.ok ⟨newWizard, hs.validationErrors⟩
  else Except.error (js "ConstitutionalViolationError")

/-- Source `nextStep` (part_009 lines 209-248): find the question bound to the
current step (no question: refuse); validate it against the answer map (errors:
surface them and refuse); refuse at step 15 or beyond; otherwise advance one
step and recompute the layer.  Refusals are ordinary `.ok (false, _)` results,
never exceptions. -/
def nextStep (questions : List QuestionDefinition) (now : Int) (hs : HookState) :
    Except JStr (Bool × HookState) :=
  match questions.find? (fun q => q.step = hs.wizard.currentStep) with
  | none => Except.ok (false, hs)
  | some currentQuestion =>
      let errors := validateAnswer currentQuestion
        (lookupAssoc hs.wizard.answers currentQuestion.id) (some hs.wizard.answers)
      if errors.length > 0 then
        Except.ok (false, ⟨hs.wizard, setAssoc hs.validationErrors currentQuestion.id errors⟩)
      else if 15 ≤ hs.wizard.currentStep then Except.ok (false, hs)
      else
        let newStep := hs.wizard.currentStep + 1
        let newWizard := { hs.wizard with
          currentStep := newStep, currentLayer := getLayerFromStep newStep,
          lastModified := now, draftSaved := false }
        if stateCompliant newWizard then Except.ok (true, ⟨newWizard, hs.validationErrors⟩)
        else Except.error (js "ConstitutionalViolationError")

/-- Source `previousStep` (part_009 lines 251-266): no-op returning false at
step 1 or below; otherwise step back one and recompute the layer (no
validation, no compliance check). -/
def previousStep (now : Int) (hs : HookState) : Bool × HookState :=
  if hs.wizard.currentStep ≤ 1 then (false, hs)
  else
    let newStep := hs.wizard.currentStep - 1
    (true, ⟨{ hs.wizard with
      currentStep := newStep, currentLayer := getLayerFromStep newStep,
      lastModified := now, draftSaved := false }, hs.validationErrors⟩)

/-- Source `goToStep` (part_009 lines 269-288): reject out-of-range targets as
a false-returning no-op; otherwise jump straight to the step (no validation of
intermediate steps) and recompute the layer, with the compliance check of the
new state. -/
def goToStep (step : Int) (now : Int) (hs : HookState) : Except JStr (Bool × HookState) :=
  if step < 1 || 15 < step then Except.ok (false, hs)
  else
    let newWizard := { hs.wizard with
      currentStep := step, currentLayer := getLayerFromStep step,
      lastModified := now, draftSaved := false }
    if stateCompliant newWizard then Except.ok (true, ⟨newWizard, hs.validationErrors⟩)
    else Except.error (js "ConstitutionalViolationError")

/-- Source `reset` (part_009 lines 346-362): replace the session with a brand
new one (fresh id, step 1, layer 1, empty answers, incomplete) and clear the
hook validation-error map.  The function body contains no storage call. -/
def resetWizard (newId : JStr) (now : Int) (_hs : HookState) : HookState :=
  ⟨initState newId now, []⟩

/-- Source `complete` (part_009 lines 365-387): validate every question; on
any error surface the full error map and refuse, otherwise mark the session
complete. -/
def completeWizard (questions : List QuestionDefinition) (now : Int) (hs : HookState) :
    Bool × HookState :=
  let allErrors := validateAllAnswers questions hs.wizard.answers
  if allErrors.length > 0 then (false, ⟨hs.wizard, allErrors⟩)
  else (true, ⟨{ hs.wizard with isComplete := true, lastModified := now }, hs.validationErrors⟩)

/-- Source hook `loadDraft` (part_009 lines 316-343) given the storage result:
a missing draft returns false; a loaded draft is compliance-checked (a
violation throws and is caught, returning false with the state untouched) and
otherwise installed. -/
def loadDraftHook (draft : Option WizardData) (hs : HookState) : Bool × HookState :=
  match draft with
  | none => (false, hs)
  | some d => if stateCompliant d then (true, ⟨d, hs.validationErrors⟩) else (false, hs)

/-- States of the `useWizardState` hook reachable from a fresh session through
the transition operations (refused and succeeded transitions alike). -/
inductive Reachable (questions : List QuestionDefinition) : HookState → Prop
  | init (id : JStr) (now : Int) : Reachable questions ⟨initState id now, []⟩
  | ofSetAnswer {hs hs' : HookState} {qid : JStr} {v : AnswerValue} {now : Int} :
      Reachable questions hs → setAnswer questions qid v now hs = Except.ok hs' →
      Reachable questions hs'
  | ofNextStep {hs hs' : HookState} {b : Bool} {now : Int} :
      Reachable questions hs → nextStep questions now hs = Except.ok (b, hs') →
      Reachable questions hs'
  | ofPreviousStep {hs hs' : HookState} {b : Bool} {now : Int} :
      Reachable questions hs → previousStep now hs = (b, hs') →
      Reachable questions hs'
  | ofGoToStep {hs hs' : HookState} {b : Bool} {step now : Int} :
      Reachable questions hs → goToStep step now hs = Except.ok (b, hs') →
      Reachable questions hs'
  | ofLoadDraft {hs hs' : HookState} {b : Bool} {d : Option WizardData} :
      Reachable questions hs → loadDraftHook d hs = (b, hs') →
      Reachable questions hs'
  | ofReset {hs : HookState} {id : JStr} {now : Int} :
      Reachable questions hs → Reachable questions (resetWizard id now hs)
  | ofComplete {hs hs' : HookState} {b : Bool} {now : Int} :
      Reachable questions hs → completeWizard questions now hs = (b, hs') →
      Reachable questions hs'

/-- Serialization of an `AnswerValue` for the model of `JSON.stringify`
(deterministic, tag-separated textual encoding; only determinism, string
content, and length enter the claims — exact JSON punctuation does not). -/
def serializeAnswerValue : AnswerValue → JStr
  | .str s => js "s:" ++ s
  | .num n => js "n:" ++ intToJStr n
  | .bool b => js "b:" ++ (if b then js "true" else js "false")
  | .list l => js "a:" ++ (l.intersperse (js ",")).flatten
  | .record keys => js "o:" ++ (keys.intersperse (js ",")).flatten

/-- Serialization of an answer map. -/
def serializeAnswers (answers : Answers) : JStr :=
  answers.flatMap (fun kv => js ";" ++ kv.1 ++ js "=" ++ serializeAnswerValue kv.2)

/-- Model of `JSON.stringify(wizardState)`: a deterministic injective-enough
encoding with dates rendered as their millisecond value (standing for their
ISO-8601 form). -/
def serializeData (d : WizardData) : JStr :=
  js "id=" ++ d.id ++
  js ";step=" ++ intToJStr d.currentStep ++
  js ";layer=" ++ intToJStr d.currentLayer ++
  js ";answers=" ++ serializeAnswers d.answers ++
  js ";startedAt=" ++ intToJStr d.startedAt ++
  js ";lastModified=" ++ intToJStr d.lastModified ++
  js ";isComplete=" ++ (if d.isComplete then js "true" else js "false") ++
  js ";draftSaved=" ++ (if d.draftSaved then js "true" else js "false")

/-- Metadata block of a stored draft (`DraftStorageSchema.metadata`). -/
structure DraftMetaS where
  savedAt : Int
  expiresAt : Int
  checksum : Option JStr
  encrypted : Bool
  compressionUsed : Bool
deriving DecidableEq

/-- A stored draft record (`DraftStorageSchema`). -/
structure DraftStorage where
  version : JStr
  wizardId : JStr
  data : WizardData
  metadata : DraftMetaS
deriving DecidableEq

/-- The browser's localStorage restricted to the draft namespace: an ordered
key/value table with unique keys (a localStorage guarantee); values are kept in
parsed form, `JSON.parse ∘ JSON.stringify` being the identity on this shape. -/
abbrev Store := List (JStr × DraftStorage)

/-- The `StorageConstants.DRAFT_PREFIX` key stem. -/
def draftKeyStem : JStr := js "wizard-draft-"

/-- localStorage `getItem`. -/
def getItem (store : Store) (key : JStr) : Option DraftStorage :=
  lookupAssoc store key

/-- localStorage `setItem` (replaces in place or appends). -/
def setItem (store : Store) (key : JStr) (v : DraftStorage) : Store :=
  setAssoc store key v

/-- localStorage `removeItem`; keys are unique, so removing the key is
filtering it out. -/
def removeItem (store : Store) (key : JStr) : Store :=
  store.filter (fun e => !(e.1 = key : Bool))

/-- Serialized form of a whole draft record (the string actually written to
localStorage), used for sizes and PII scans. -/
def serializeDraft (d : DraftStorage) : JStr :=
  js "v=" ++ d.version ++ js ";wid=" ++ d.wizardId ++
  js ";data=" ++ serializeData d.data ++
  js ";savedAt=" ++ intToJStr d.metadata.savedAt ++
  js ";expiresAt=" ++ intToJStr d.metadata.expiresAt ++
  (match d.metadata.checksum with
    | some c => js ";checksum=" ++ c
    | none => js "") ++
  js ";encrypted=" ++ (if d.metadata.encrypted then js "true" else js "false")

/-- Source `StorageQuotaManager.getUsage().used`: total of key and value
lengths over the stored entries. -/
def usageUsed (store : Store) : Nat :=
  store.foldl (fun acc e => acc + e.1.length + (serializeDraft e.2).length) 0

/-- Source `StorageQuotaManager.checkQuota` against the 5 MB estimate. -/
def checkQuota (store : Store) (sizeInBytes : Nat) : Bool :=
  usageUsed store + sizeInBytes < 5 * 1024 * 1024

/-- Source `cleanupExpiredDraftsSync` (storage.ts lines 462-501): first
collect the expired draft keys, then remove them (two passes — no live-index
skipping here). -/
def cleanupExpiredDraftsSync (now : Int) (store : Store) : Nat × Store :=
  let keysToRemove := (store.filter
    (fun e => draftKeyStem.isPrefixOf e.1 && decide (e.2.metadata.expiresAt < now))).map
    (fun e => e.1)
  (keysToRemove.length, keysToRemove.foldl removeItem store)

/-- The 24-hour retention window in milliseconds
(`DRAFT_RETENTION_HOURS * 60 * 60 * 1000`). -/
def retentionMs : Int := 24 * 60 * 60 * 1000

/-- Source `DraftStorageManager.saveDraft` (storage.ts lines 280-350),
parameterized by the checksum function `hash` (modelling the SHA-256 digest):
stamp `savedAt = now`, `expiresAt = now + 24h`, scan the serialized state for
PII (setting the `encrypted` flag), checksum it, check quota — attempting an
expired-draft cleanup and failing with `QUOTA_EXCEEDED` if nothing was cleaned
— and write the draft under `wizard-draft-<id>`. -/
def saveDraft (hash : JStr → JStr) (now : Int) (wizardId : JStr) (d : WizardData)
    (store : Store) : Except JStr Store :=
  let expiresAt := now + retentionMs
  let stateString := serializeData d
  let piiResult := detectPII stateString
  let encrypted := piiResult.hasPII
  let checksum := hash stateString
  let draft : DraftStorage := ⟨js "1.0", wizardId, d, ⟨now, expiresAt, some checksum, encrypted, false⟩⟩
  let dataToStore := serializeDraft draft
  let sizeInBytes := dataToStore.length
  let key := draftKeyStem ++ wizardId
  if checkQuota store sizeInBytes then Except.ok (setItem store key draft)
  else
    let cleaned := cleanupExpiredDraftsSync now store
    if cleaned.1 > 0 then Except.ok (setItem cleaned.2 key draft)
    else Except.error (js "QUOTA_EXCEEDED")

/-- Source `DraftStorageManager.loadDraft` (storage.ts lines 352-400): a
missing key is not-found; an entry past its expiry is removed and reported
not-found; otherwise the checksum (when present) is verified — a mismatch
throws `CORRUPTION_DETECTED` — and the stored session is returned together
with the (possibly pruned) store. -/
def loadDraft (hash : JStr → JStr) (now : Int) (wizardId : JStr) (store : Store) :
    Except JStr (Option WizardData × Store) :=
  let key := draftKeyStem ++ wizardId
  match getItem store key with
  | none => Except.ok (none, store)
  | some draft =>
      if draft.metadata.expiresAt < now then Except.ok (none, removeItem store key)
      else
        let dataString := serializeData draft.data
        match draft.metadata.checksum with
        | some c =>
            if hash dataString = c then Except.ok (some draft.data, store)
            else Except.error (js "CORRUPTION_DETECTED")
        | none => Except.ok (some draft.data, store)

/-- Source `DraftStorageManager.deleteDraft` (storage.ts lines 508-516). -/
def deleteDraft (wizardId : JStr) (store : Store) : Store :=
  removeItem store (draftKeyStem ++ wizardId)

/-- Source `DraftMetadata` entries produced by `listDrafts`. -/
structure DraftMetadata where
  wizardId : JStr
  savedAt : Int
  expiresAt : Int
  currentStep : Int
  answersCount : Nat
  containsPII : Bool
  size : Nat
  checksum : Option JStr
deriving DecidableEq

/-- Metadata derived from one stored draft (storage.ts lines 422-438);
`currentStep || 1` maps a falsy step to 1. -/
def mkDraftMetadata (key : JStr) (stored : JStr) (draft : DraftStorage) : DraftMetadata :=
  ⟨key.drop draftKeyStem.length,
   draft.metadata.savedAt,
   draft.metadata.expiresAt,
   (if draft.data.currentStep = 0 then 1 else draft.data.currentStep),
   draft.data.answers.length,
   (detectPII (serializeData draft.data)).hasPII,
   stored.length,
   draft.metadata.checksum⟩

/-- The `for (let i = 0; i < localStorage.length; i++)` scan of `listDrafts`
(storage.ts lines 406-449), reproduced with its live-index semantics: a
`removeItem` of the entry at index `i` shifts the following entries down while
the loop still increments `i`, so the entry immediately after a removed one is
never examined in this pass.  `fuel` is a structural bound; `store.length + 1`
suffices since `i` grows by one every iteration and the store never grows. -/
def listDraftsLoop (now : Int) : Nat → Store → Nat → List DraftMetadata →
    List DraftMetadata × Store
  | 0, store, _, acc => (acc, store)
  | fuel + 1, store, i, acc =>
      match store[i]? with
      | none => (acc, store)
      | some (key, draft) =>
          if draftKeyStem.isPrefixOf key then
            if now ≤ draft.metadata.expiresAt then
              listDraftsLoop now fuel store (i + 1)
                (acc ++ [mkDraftMetadata key (serializeDraft draft) draft])
            else
              listDraftsLoop now fuel (removeItem store key) (i + 1) acc
          else listDraftsLoop now fuel store (i + 1) acc

/-- Stable insertion into a savedAt-descending list (model of the
`(a, b) => b.savedAt - a.savedAt` comparator sort). -/
def insertDesc (m : DraftMetadata) : List DraftMetadata → List DraftMetadata
  | [] => [m]
  | x :: xs => if m.savedAt ≤ x.savedAt then x :: insertDesc m xs else m :: x :: xs

/-- Sort draft metadata by `savedAt` descending. -/
def sortDesc : List DraftMetadata → List DraftMetadata
  | [] => []
  | x :: xs => insertDesc x (sortDesc xs)

/-- Source `DraftStorageManager.listDrafts` (storage.ts lines 402-456):
scan the store, collect metadata for unexpired drafts, remove expired ones
encountered by the scan, and return the list sorted by save time (newest
first) together with the updated store. -/
def listDrafts (now : Int) (store : Store) : List DraftMetadata × Store :=
  let r := listDraftsLoop now (store.length + 1) store 0 []
  (sortDesc r.1, r.2)

/-- Summary part of `OutputSpecification`. -/
structure SummaryOut where
  text : JStr
  keyTerms : List JStr
  confidence : Rat
deriving DecidableEq

/-- Purpose bucket of the structured data. -/
structure PurposeOut where
  primary : JStr
  secondary : Option (List JStr)
deriving DecidableEq

/-- Stakeholders bucket of the structured data. -/
structure StakeholdersOut where
  primary : List JStr
  secondary : Option (List JStr)
deriving DecidableEq

/-- Requirements bucket of the structured data. -/
structure RequirementsOut where
  functional : List JStr
  nonFunctional : List JStr
deriving DecidableEq

/-- Structured-data part of `OutputSpecification`. -/
structure StructuredData where
  purpose : PurposeOut
  stakeholders : StakeholdersOut
  requirements : RequirementsOut
  constraints : List JStr
  success_criteria : List JStr
deriving DecidableEq

/-- Markdown part of `OutputSpecification`. -/
structure MarkdownSpec where
  content : JStr
  wordCount : Nat
  sections : List JStr
deriving DecidableEq

/-- The full `OutputSpecification` record. -/
structure OutputSpecification where
  summary : SummaryOut
  structuredData : StructuredData
  markdownSpec : MarkdownSpec
deriving DecidableEq

/-- Model of `answers[k] || ''`: the value when truthy, else the empty
string. -/
def jsOrEmptyAnswer (v : Option AnswerValue) : AnswerValue :=
  match v with
  | some v' => if jsTruthyV v' then v' else .str []
  | none => .str []

/-- Substring test (`String.prototype.includes`). -/
def containsSub (hay needle : JStr) : Bool :=
  match hay with
  | [] => needle.isEmpty
  | _ :: t => needle.isPrefixOf hay || containsSub t needle

/-- The fixed keyword list scanned by `generateSummary`. -/
def commonTerms : List JStr :=
  [js "自動化", js "効率化", js "改善", js "システム", js "データ", js "管理",
   js "処理", js "分析", js "レポート", js "ダッシュボード", js "連携"]

/-- The two sequential length adjustments of `generateSummary` (part_008 lines
205-212): pad with the generic suffix when shorter than 50, then truncate to
497 characters plus an ellipsis when longer than 500. -/
def clampSummary (s : JStr) : JStr :=
  let s1 := if s.length < 50 then s ++ js "を目的とした業務改善システム" else s
  if 500 < s1.length then s1.take 497 ++ js "..." else s1

/-- Join a list of strings with a separator (`Array.prototype.join`). -/
def joinWith (sep : JStr) (l : List JStr) : JStr :=
  (l.intersperse sep).flatten

/-- Source `generateSummary` (part_008 lines 180-245): build the summary text
from the purpose and KPI answers (each sliced), clamp its length, extract the
fixed keywords occurring in the concatenated key answers, and score confidence
as the answered fraction (capped at 1). -/
def generateSummary (d : WizardData) (questions : List QuestionDefinition) : SummaryOut :=
  let answers := d.answers
  let purpose := jsOrEmptyAnswer (lookupAssoc answers (js "layer1_purpose"))
  let kpi := jsOrEmptyAnswer (lookupAssoc answers (js "layer1_kpi"))
  let actors := jsOrEmptyAnswer (lookupAssoc answers (js "layer2_actors"))
  let ui := jsOrEmptyAnswer (lookupAssoc answers (js "layer3_ui"))
  let summary0 : JStr :=
    if jsTruthyV purpose then (answerToString purpose).take 100 else []
  let summary1 : JStr :=
    if jsTruthyV kpi then
      if !summary0.isEmpty then
        summary0 ++ js " (" ++ (answerToString kpi).take 50 ++ js ")"
      else summary0 ++ (answerToString kpi).take 100
    else summary0
  let summaryText := clampSummary summary1
  let allText := joinWith (js " ")
    (([purpose, kpi, actors, ui].filter jsTruthyV).map answerToString)
  let keyTerms := commonTerms.foldl
    (fun acc term =>
      if containsSub allText term && !(acc.contains term) then acc ++ [term] else acc)
    []
  let confidence : Rat :=
    min ((answers.length : Rat) / (questions.length : Rat)) 1
  ⟨summaryText, keyTerms, confidence⟩

/-- Split on `、` or `,` keeping empty segments (JS `split(/[、,]/)`),
accumulating the current segment in reverse. -/
def splitDelimsAux : JStr → JStr → List JStr
  | [], cur => [cur.reverse]
  | c :: rest, cur =>
      if c = '、' || c = ',' then cur.reverse :: splitDelimsAux rest []
      else splitDelimsAux rest (c :: cur)

/-- Source `split(/[、,]/).map(s => s.trim())`. -/
def splitDelims (s : JStr) : List JStr :=
  (splitDelimsAux s []).map jsTrim

/-- Source `generateStructuredData` (part_008 lines 248-285): group the raw
answers into the fixed-shape record, splitting the free-text stakeholder
fields on comma delimiters. -/
def generateStructuredData (d : WizardData) : StructuredData :=
  let answers := d.answers
  let look := fun (k : String) => lookupAssoc answers (js k)
  ⟨⟨answerToString (jsOrEmptyAnswer (look "layer1_purpose")),
    if jsTruthy (look "layer1_constraints") then
      some [answerToString ((look "layer1_constraints").getD (.str []))]
    else none⟩,
   ⟨(if jsTruthy (look "layer2_actors") then
       splitDelims (answerToString ((look "layer2_actors").getD (.str [])))
     else []),
    if jsTruthy (look "layer2_input_data") then
      some (splitDelims (answerToString ((look "layer2_input_data").getD (.str []))))
    else none⟩,
   ⟨([(if jsTruthy (look "layer2_output_data") then
         js "出力: " ++ answerToString ((look "layer2_output_data").getD (.str []))
       else []),
      (if jsTruthy (look "layer3_ui") then
         js "UI: " ++ answerToString ((look "layer3_ui").getD (.str []))
       else []),
      (if jsTruthy (look "layer3_automation") then
         js "自動化: " ++ answerToString ((look "layer3_automation").getD (.str []))
       else [])].filter (fun s => !s.isEmpty)),
    ([(if jsTruthy (look "layer1_kpi") then
         js "性能要件: " ++ answerToString ((look "layer1_kpi").getD (.str []))
       else []),
      (if jsTruthy (look "layer3_permissions") then
         js "権限管理: " ++ answerToString ((look "layer3_permissions").getD (.str []))
       else [])].filter (fun s => !s.isEmpty))⟩,
   (if jsTruthy (look "layer1_constraints") then
      [answerToString ((look "layer1_constraints").getD (.str []))]
    else []),
   (if jsTruthy (look "layer1_success_criteria") then
      [answerToString ((look "layer1_success_criteria").getD (.str []))]
    else [])⟩

/-- Source `generateMarkdownSpec` (part_008 lines 288-346): assemble the
section lines, drop falsy (empty) ones, join with newlines, count the
characters left after stripping markdown punctuation, and list the section
names that were produced.  The generation-timestamp line is a parameter. -/
def generateMarkdownSpec (summary : SummaryOut) (sd : StructuredData)
    (nowText : JStr) : MarkdownSpec :=
  let sections : List JStr :=
    [js "# システム仕様書", [], js "## 概要", summary.text, [],
     js "## 目的・目標",
     js "**主要目的:** " ++ sd.purpose.primary, [],
     (match sd.purpose.secondary with
       | some l => joinWith (js "\n") (l.map (fun s => js "**制約条件:** " ++ s))
       | none => []),
     [], js "## 関係者",
     js "**主要関係者:** " ++ joinWith (js "、") sd.stakeholders.primary, [],
     (match sd.stakeholders.secondary with
       | some l =>
           if l.length > 0 then js "**関連データ:** " ++ joinWith (js "、") l else []
       | none => []),
     [], js "## 機能要件"] ++
    sd.requirements.functional.map (fun req => js "- " ++ req) ++
    [[], js "## 非機能要件"] ++
    sd.requirements.nonFunctional.map (fun req => js "- " ++ req) ++
    [[], (if sd.constraints.length > 0 then js "## 制約条件" else [])] ++
    sd.constraints.map (fun c => js "- " ++ c) ++
    [[], (if sd.success_criteria.length > 0 then js "## 成功基準" else [])] ++
    sd.success_criteria.map (fun c => js "- " ++ c) ++
    [[], js "---",
     js "*生成日時: " ++ nowText ++ js "*",
     js "*キーワード: " ++ joinWith (js "、") summary.keyTerms ++ js "*"]
  let content := joinWith (js "\n") (sections.filter (fun s => !s.isEmpty))
  let wordCount :=
    (jsTrim (content.filter
      (fun c => !(c = '#' || c = '*' || c = '-' || c = '\n')))).length
  let sectionNames :=
    [js "概要", js "目的・目標", js "関係者", js "機能要件", js "非機能要件"] ++
    (if sd.constraints.length > 0 then [js "制約条件"] else []) ++
    (if sd.success_criteria.length > 0 then [js "成功基準"] else [])
  ⟨content, wordCount, sectionNames⟩

/-- Source `validateOutputStructure` (part_008 lines 349-373): summary text
non-empty and within [50, 500]; a primary purpose present; markdown content
non-empty with at least 100 counted characters. -/
def validateOutputStructure (output : OutputSpecification) : Bool :=
  !(output.summary.text.isEmpty ||
    output.summary.text.length < 50 ||
    500 < output.summary.text.length) &&
  !output.structuredData.purpose.primary.isEmpty &&
  !(output.markdownSpec.content.isEmpty || output.markdownSpec.wordCount < 100)

/-- Source `generateOutput` (part_008 lines 76-177) with the default options:
refuse with an explicit error unless the session is complete and at least 12
answers are present; build the three formats; reject an output failing
`validateOutputStructure`.  The result is `(generated output or null, error
message or null)`, mirroring the hook's `generatedOutput`/`error` pair; the
wall-clock budget checks always pass in this timeless model. -/
def generateOutput (d : WizardData) (questions : List QuestionDefinition)
    (nowText : JStr) : Option OutputSpecification × Option JStr :=
  if !d.isComplete then
    (none, some (js "Wizard must be completed before generating output"))
  else if d.answers.length < 12 then
    (none, some (js "Insufficient answers provided (minimum 12 required)"))
  else
    let summary := generateSummary d questions
    let structuredData := generateStructuredData d
    let markdownSpec := generateMarkdownSpec summary structuredData nowText
    let output : OutputSpecification := ⟨summary, structuredData, markdownSpec⟩
    if !(validateOutputStructure output) then
      (none, some (js "Generated output failed validation"))
    else (some output, none)

/-- Composite of `reset` with the storage component: the source `reset`
(part_009 lines 346-362) performs only in-memory state updates and contains no
`DraftStorageManager` call, so the storage table passes through unchanged. -/
def resetApp (newId : JStr) (now : Int) (app : HookState × Store) : HookState × Store :=
  (resetWizard newId now app.1, app.2)

/-- Checksum acceptance predicate of `loadDraft` for a stored draft: when a
checksum is present it must equal the hash of the re-serialized data. -/
def checksumOkB (hash : JStr → JStr) (d : DraftStorage) : Bool :=
  match d.metadata.checksum with
  | some c => hash (serializeData d.data) = c
  | none => true

/-- Wizard-state invariant: the step stays in [1, 15] and the layer is the one
derived from the step. -/
def wizardInv (hs : HookState) : Prop :=
  1 ≤ hs.wizard.currentStep ∧ hs.wizard.currentStep ≤ 15 ∧
    hs.wizard.currentLayer = getLayerFromStep hs.wizard.currentStep

/-- Concrete predicate for the C8 scenario: a `showIf` returning false on
every answer map. -/
def cxShowIfFalse : Answers → Bool := fun _ => false

/-- A required short-text question declaring the always-false `showIf`. -/
def cxHiddenQ : QuestionDefinition :=
  ⟨js "q1", 1, 1, .shortText, true, none, none, none, none, none, some cxShowIfFalse⟩

/-- A minimal stored wizard session used in storage scenarios. -/
def cxSessionOf (id : String) : WizardData :=
  ⟨js id, 1, 1, [], 0, 0, false, false, []⟩

/-- An expired stored draft (saved at 0, expiring after the 24-hour window). -/
def cxDraftA : DraftStorage :=
  ⟨js "1.0", js "a", cxSessionOf "a", ⟨0, retentionMs, none, false, false⟩⟩

/-- A second expired stored draft, adjacent to the first. -/
def cxDraftB : DraftStorage :=
  ⟨js "1.0", js "b", cxSessionOf "b", ⟨0, retentionMs, none, false, false⟩⟩

/-- A store holding the two adjacent expired drafts. -/
def cxStore : Store :=
  [(draftKeyStem ++ js "a", cxDraftA), (draftKeyStem ++ js "b", cxDraftB)]

/-- A store holding only the first expired draft. -/
def cxSingleStore : Store := [(draftKeyStem ++ js "a", cxDraftA)]

/-- A time strictly after both drafts' expiry. -/
def cxNow : Int := retentionMs + 1

/-- A concrete checksum function standing for the SHA-256 digest. -/
def cxHash : JStr → JStr := fun s => js "sha256-" ++ s

/-- A small in-progress session to be saved and re-loaded. -/
def cxSession : WizardData :=
  ⟨js "w5", 3, 1, [(js "layer1_purpose", .str (js "業務効率化"))], 0, 0, false, false, []⟩

/-- The store produced by saving `cxSession` at time 0 into an empty store. -/
def cxSavedStore : Store :=
  [(draftKeyStem ++ js "w5",
    ⟨js "1.0", js "w5", cxSession,
     ⟨0, retentionMs, some (cxHash (serializeData cxSession)),
      (detectPII (serializeData cxSession)).hasPII, false⟩⟩)]

/-- A required short-text question for the end-to-end catalog. -/
def cxQuestion (id : String) (layer step : Int) : QuestionDefinition :=
  ⟨js id, layer, step, .shortText, true, none, none, none, none, none, none⟩

/-- A 15-question, 3-layer catalog with the answer ids read by the output
generator. -/
def cxCatalog : List QuestionDefinition :=
  [cxQuestion "layer1_purpose" 1 1, cxQuestion "layer1_kpi" 1 2,
   cxQuestion "layer1_deadline" 1 3, cxQuestion "layer1_budget" 1 4,
   cxQuestion "layer1_priority" 1 5, cxQuestion "layer2_actors" 2 6,
   cxQuestion "layer2_process" 2 7, cxQuestion "layer2_input_data" 2 8,
   cxQuestion "layer2_output_data" 2 9, cxQuestion "layer2_frequency" 2 10,
   cxQuestion "layer3_ui" 3 11, cxQuestion "layer3_automation" 3 12,
   cxQuestion "layer3_permissions" 3 13, cxQuestion "layer3_integration" 3 14,
   cxQuestion "layer3_security" 3 15]

/-- Valid answers for all 15 questions. -/
def cxFullAnswers : Answers :=
  [(js "layer1_purpose", .str (js "販売管理業務の効率化と月次レポート作成の自動化を実現し手作業による集計ミスを削減して業務全体の生産性を高める仕組みを構築する")),
   (js "layer1_kpi", .str (js "処理時間を50パーセント短縮する")),
   (js "layer1_deadline", .str (js "3ヶ月以内")),
   (js "layer1_budget", .str (js "50万円以下")),
   (js "layer1_priority", .str (js "作業時間の短縮")),
   (js "layer2_actors", .str (js "営業部、経理部、IT部")),
   (js "layer2_process", .str (js "手作業で集計している")),
   (js "layer2_input_data", .str (js "売上データ、顧客データ")),
   (js "layer2_output_data", .str (js "月次レポート")),
   (js "layer2_frequency", .str (js "毎月")),
   (js "layer3_ui", .str (js "ダッシュボード画面")),
   (js "layer3_automation", .str (js "集計の完全自動化")),
   (js "layer3_permissions", .str (js "部門別の閲覧権限")),
   (js "layer3_integration", .str (js "既存の会計ソフトと連携")),
   (js "layer3_security", .str (js "社内ネットワーク限定"))]

/-- The hook state holding all 15 answers just before `complete()`. -/
def cxPreComplete : HookState :=
  ⟨{ initState (js "w7") 0 with answers := cxFullAnswers }, []⟩

/-- The completed session after `complete()` succeeds. -/
def cxDone : WizardData :=
  { cxPreComplete.wizard with isComplete := true, lastModified := 0 }

/-- The artifact generated from the completed end-to-end session. -/
def cxOut : OutputSpecification :=
  ⟨generateSummary cxDone cxCatalog, generateStructuredData cxDone,
   generateMarkdownSpec (generateSummary cxDone cxCatalog)
     (generateStructuredData cxDone) (js "2025-09-06")⟩

/-- An incomplete session (fresh state). -/
def cxIncomplete : WizardData := initState (js "w6") 0

/-- A complete session with fewer than 12 answers. -/
def cxFewAnswers : WizardData :=
  { initState (js "w6b") 0 with
     isComplete := true, answers := [(js "layer1_purpose", .str (js "効率化"))] }

theorem lookup_setAssoc {α : Type} (m : List (JStr × α)) (k : JStr) (v : α) :
    lookupAssoc (setAssoc m k v) k = some v := by
  induction m with
  | nil => simp [setAssoc, lookupAssoc]
  | cons hd tl ih =>
      by_cases h : hd.1 = k
      · simp [setAssoc, h, lookupAssoc]
      · simp [setAssoc, h, lookupAssoc, ih]

theorem getItem_removeItem (store : Store) (key : JStr) :
    getItem (removeItem store key) key = none := by
  induction store with
  | nil => simp [removeItem, getItem, lookupAssoc]
  | cons hd tl ih =>
      by_cases h : hd.1 = key
      · simpa [removeItem, h] using ih
      · simpa [removeItem, getItem, lookupAssoc, h] using ih

theorem getItem_setItem (store : Store) (key : JStr) (v : DraftStorage) :
    getItem (setItem store key v) key = some v :=
  lookup_setAssoc store key v

theorem compliant_bounds (d : WizardData) (h : stateCompliant d = true) :
    1 ≤ d.currentStep ∧ d.currentStep ≤ 15 ∧
      d.currentLayer = getLayerFromStep d.currentStep := by
  unfold stateCompliant validateLayerProgression at h
  split_ifs at h with h1 h2 h3
  · simp only [Option.some.injEq, decide_eq_true_eq] at h
    exact ⟨by omega, by omega, by rw [h1]; unfold getLayerFromStep; rw [if_pos (by omega)]⟩
  · simp only [Option.some.injEq, decide_eq_true_eq] at h
    refine ⟨by omega, by omega, ?_⟩
    rw [h2]; unfold getLayerFromStep
    rw [if_neg (by omega), if_pos (by omega)]
  · simp only [Option.some.injEq, decide_eq_true_eq] at h
    refine ⟨by omega, by omega, ?_⟩
    rw [h3]; unfold getLayerFromStep
    rw [if_neg (by omega), if_neg (by omega)]
  · simp at h

theorem inv_init (id : JStr) (now : Int) : wizardInv ⟨initState id now, []⟩ := by
  refine ⟨by norm_num [initState], by norm_num [initState], ?_⟩
  simp [initState, getLayerFromStep]

theorem reachable_inv {questions : List QuestionDefinition} {hs : HookState}
    (h : Reachable questions hs) : wizardInv hs := by
  induction h with
  | init id now => exact inv_init id now
  | ofSetAnswer hr heq ih =>
      rename_i hs₀ hs' qid v now
      simp only [setAnswer] at heq
      split at heq
      · split at heq <;>
          · simp only [Except.ok.injEq] at heq
            rw [← heq]; exact ih
      · exact absurd heq (by simp)
  | ofNextStep hr heq ih =>
      rename_i hs₀ hs' b now
      simp only [nextStep] at heq
      split at heq
      · simp only [Except.ok.injEq, Prod.mk.injEq] at heq
        rw [← heq.2]; exact ih
      · rename_i q hfind
        split at heq
        · simp only [Except.ok.injEq, Prod.mk.injEq] at heq
          rw [← heq.2]; exact ih
        · split at heq
          · simp only [Except.ok.injEq, Prod.mk.injEq] at heq
            rw [← heq.2]; exact ih
          · split at heq
            · simp only [Except.ok.injEq, Prod.mk.injEq] at heq
              rw [← heq.2]
              obtain ⟨ih1, ih2, ih3⟩ := ih
              rename_i h15 _
              refine ⟨?_, ?_, rfl⟩ <;> dsimp only <;> omega
            · exact absurd heq (by simp)
  | ofPreviousStep hr heq ih =>
      rename_i hs₀ hs' b now
      simp only [previousStep] at heq
      split at heq
      · simp only [Prod.mk.injEq] at heq
        rw [← heq.2]; exact ih
      · simp only [Prod.mk.injEq] at heq
        rw [← heq.2]
        obtain ⟨ih1, ih2, ih3⟩ := ih
        rename_i h1
        refine ⟨?_, ?_, rfl⟩ <;> dsimp only <;> omega
  | ofGoToStep hr heq ih =>
      rename_i hs₀ hs' b step now
      simp only [goToStep] at heq
      split at heq
      · simp only [Except.ok.injEq, Prod.mk.injEq] at heq
        rw [← heq.2]; exact ih
      · rename_i hrange
        split at heq
        · simp only [Except.ok.injEq, Prod.mk.injEq] at heq
          rw [← heq.2]
          simp only [Bool.or_eq_true, decide_eq_true_eq, not_or, not_lt] at hrange
          refine ⟨?_, ?_, rfl⟩ <;> dsimp only <;> omega
        · exact absurd heq (by simp)
  | ofLoadDraft hr heq ih =>
      rename_i hs₀ hs' b d
      rcases d with _ | dv
      · simp only [loadDraftHook, Prod.mk.injEq] at heq
        rw [← heq.2]; exact ih
      · simp only [loadDraftHook] at heq
        split at heq
        · simp only [Prod.mk.injEq] at heq
          rw [← heq.2]
          rename_i hc
          exact compliant_bounds dv hc
        · simp only [Prod.mk.injEq] at heq
          rw [← heq.2]; exact ih
  | ofReset hr ih =>
      rename_i hs₀ id now
      exact inv_init id now
  | ofComplete hr heq ih =>
      rename_i hs₀ hs' b now
      simp only [completeWizard] at heq
      split at heq <;>
        · simp only [Prod.mk.injEq] at heq
          rw [← heq.2]
          exact ih

/-- C1: for every step s in [1,15] the derived layer (`getLayerFromStep`) is 1
for s in 1-5, 2 for 6-10 and 3 for 11-15, and every wizard state reachable
through the transition operations (`setAnswer`, `nextStep`, `previousStep`,
`goToStep`, `loadDraft`, `reset`, `complete`) has `currentLayer` equal to the
layer derived from `currentStep`; a (step, layer) pair violating the mapping
(i.e. failing `validateLayerProgression`) never occurs. -/
theorem layer_step_invariant (questions : List QuestionDefinition) (hs : HookState)
    (h : Reachable questions hs) :
    (∀ s : Int, (1 ≤ s → s ≤ 5 → getLayerFromStep s = 1) ∧
      (6 ≤ s → s ≤ 10 → getLayerFromStep s = 2) ∧
      (11 ≤ s → s ≤ 15 → getLayerFromStep s = 3)) ∧
    hs.wizard.currentLayer = getLayerFromStep hs.wizard.currentStep ∧
    validateLayerProgression hs.wizard.currentStep hs.wizard.currentLayer = some true := by
  obtain ⟨h1, h15, hlayer⟩ := reachable_inv h
  refine ⟨?_, hlayer, ?_⟩
  · intro s
    refine ⟨fun _ h5 => ?_, fun h6 h10 => ?_, fun h11 _ => ?_⟩
    · unfold getLayerFromStep; rw [if_pos h5]
    · unfold getLayerFromStep; rw [if_neg (by omega), if_pos h10]
    · unfold getLayerFromStep; rw [if_neg (by omega), if_neg (by omega)]
  · by_cases h5 : hs.wizard.currentStep ≤ 5
    · have hl : getLayerFromStep hs.wizard.currentStep = 1 := by
        unfold getLayerFromStep; rw [if_pos h5]
      rw [hlayer, hl]
      unfold validateLayerProgression
      rw [if_pos rfl]
      simp only [Option.some.injEq, decide_eq_true_eq]
      omega
    · by_cases h10 : hs.wizard.currentStep ≤ 10
      · have hl : getLayerFromStep hs.wizard.currentStep = 2 := by
          unfold getLayerFromStep; rw [if_neg h5, if_pos h10]
        rw [hlayer, hl]
        unfold validateLayerProgression
        rw [if_neg (by norm_num), if_pos rfl]
        simp only [Option.some.injEq, decide_eq_true_eq]
        omega
      · have hl : getLayerFromStep hs.wizard.currentStep = 3 := by
          unfold getLayerFromStep; rw [if_neg h5, if_neg h10]
        rw [hlayer, hl]
        unfold validateLayerProgression
        rw [if_neg (by norm_num), if_neg (by norm_num), if_pos rfl]
        simp only [Option.some.injEq, decide_eq_true_eq]
        omega

/-- C1 witness: the invariant instantiated at a freshly initialized session. -/
theorem layer_step_invariant_witness :
    (∀ s : Int, (1 ≤ s → s ≤ 5 → getLayerFromStep s = 1) ∧
      (6 ≤ s → s ≤ 10 → getLayerFromStep s = 2) ∧
      (11 ≤ s → s ≤ 15 → getLayerFromStep s = 3)) ∧
    (⟨initState (js "w") 0, []⟩ : HookState).wizard.currentLayer =
      getLayerFromStep (⟨initState (js "w") 0, []⟩ : HookState).wizard.currentStep ∧
    validateLayerProgression (⟨initState (js "w") 0, []⟩ : HookState).wizard.currentStep
      (⟨initState (js "w") 0, []⟩ : HookState).wizard.currentLayer = some true :=
  layer_step_invariant [] ⟨initState (js "w") 0, []⟩ (Reachable.init (js "w") 0)

theorem layerProgression_derived (s : Int) (h1 : 1 ≤ s) (h15 : s ≤ 15) :
    validateLayerProgression s (getLayerFromStep s) = some true := by
  by_cases h5 : s ≤ 5
  · have hl : getLayerFromStep s = 1 := by unfold getLayerFromStep; rw [if_pos h5]
    rw [hl]; unfold validateLayerProgression
    rw [if_pos rfl]
    simp only [Option.some.injEq, decide_eq_true_eq]
    omega
  · by_cases h10 : s ≤ 10
    · have hl : getLayerFromStep s = 2 := by
        unfold getLayerFromStep; rw [if_neg h5, if_pos h10]
      rw [hl]; unfold validateLayerProgression
      rw [if_neg (by norm_num), if_pos rfl]
      simp only [Option.some.injEq, decide_eq_true_eq]
      omega
    · have hl : getLayerFromStep s = 3 := by
        unfold getLayerFromStep; rw [if_neg h5, if_neg h10]
      rw [hl]; unfold validateLayerProgression
      rw [if_neg (by norm_num), if_neg (by norm_num), if_pos rfl]
      simp only [Option.some.injEq, decide_eq_true_eq]
      omega

/-- C2: when the question bound to the current step produces a non-empty
validation-error list, `nextStep` refuses the transition as an ordinary result
(`.ok`, never an exception): it returns false, leaves the wizard record —
`currentStep`, `currentLayer` and the answer map — untouched, and writes the
field's errors into the validation-error map.  In particular a required,
unanswered question always produces the blocking `REQUIRED` error. -/
theorem nextStep_refuses_on_errors (questions : List QuestionDefinition) (now : Int)
    (hs : HookState) (q : QuestionDefinition)
    (hfind : questions.find? (fun q' => q'.step = hs.wizard.currentStep) = some q)
    (herr : validateAnswer q (lookupAssoc hs.wizard.answers q.id)
      (some hs.wizard.answers) ≠ []) :
    nextStep questions now hs = Except.ok (false,
      ⟨hs.wizard, setAssoc hs.validationErrors q.id
        (validateAnswer q (lookupAssoc hs.wizard.answers q.id) (some hs.wizard.answers))⟩) ∧
    lookupAssoc (setAssoc hs.validationErrors q.id
        (validateAnswer q (lookupAssoc hs.wizard.answers q.id) (some hs.wizard.answers))) q.id =
      some (validateAnswer q (lookupAssoc hs.wizard.answers q.id) (some hs.wizard.answers)) ∧
    (q.required = true → lookupAssoc hs.wizard.answers q.id = none →
      validateAnswer q none (some hs.wizard.answers) =
        [⟨q.id, js "validation.required", js "REQUIRED"⟩]) := by
  refine ⟨?_, lookup_setAssoc _ _ _, fun hreq _ => ?_⟩
  · simp only [nextStep, hfind]
    rw [if_pos (by simpa [List.length_pos] using herr)]
  · simp [validateAnswer, validateRequired, hreq]

/-- C2 witness: a single required short-text question bound to step 1 with an
empty answer map. -/
theorem nextStep_refuses_on_errors_witness :
    nextStep [⟨js "q1", 1, 1, .shortText, true, none, none, none, none, none, none⟩] 0
        ⟨initState (js "w") 0, []⟩ =
      Except.ok (false, ⟨initState (js "w") 0,
        [(js "q1", [⟨js "q1", js "validation.required", js "REQUIRED"⟩])]⟩) ∧
    lookupAssoc [(js "q1", [(⟨js "q1", js "validation.required", js "REQUIRED"⟩ : ValidationError)])]
        (js "q1") = some [⟨js "q1", js "validation.required", js "REQUIRED"⟩] := by
  have h := nextStep_refuses_on_errors
    [⟨js "q1", 1, 1, .shortText, true, none, none, none, none, none, none⟩] 0
    ⟨initState (js "w") 0, []⟩
    ⟨js "q1", 1, 1, .shortText, true, none, none, none, none, none, none⟩
    (by rfl) (by decide)
  exact ⟨h.1, h.2.1⟩

/-- C3: `nextStep` at step 15 refuses (currentStep never exceeds 15) leaving
the wizard record unchanged; `previousStep` at step 1 is a false-returning
no-op; `goToStep` rejects any target outside [1,15] as a false-returning no-op
and jumps directly to any target inside [1,15], recomputing `currentLayer`,
while leaving the answers and the validation-error map untouched (no
validation of intermediate steps). -/
theorem step_bounds_and_jump (questions : List QuestionDefinition) (now : Int)
    (hs : HookState) :
    (hs.wizard.currentStep = 15 →
      ∃ hs', nextStep questions now hs = Except.ok (false, hs') ∧ hs'.wizard = hs.wizard) ∧
    (hs.wizard.currentStep = 1 → previousStep now hs = (false, hs)) ∧
    (∀ step : Int, step < 1 ∨ 15 < step →
      goToStep step now hs = Except.ok (false, hs)) ∧
    (∀ step : Int, 1 ≤ step → step ≤ 15 →
      goToStep step now hs = Except.ok (true,
        ⟨{ hs.wizard with
            currentStep := step, currentLayer := getLayerFromStep step,
            lastModified := now, draftSaved := false }, hs.validationErrors⟩)) := by
  refine ⟨fun h15 => ?_, fun h1 => ?_, fun step hout => ?_, fun step hlo hhi => ?_⟩
  · rcases hfind : questions.find? (fun q => q.step = hs.wizard.currentStep) with _ | q
    · exact ⟨hs, by simp only [nextStep, hfind], rfl⟩
    · by_cases herr : (validateAnswer q (lookupAssoc hs.wizard.answers q.id)
          (some hs.wizard.answers)).length > 0
      · refine ⟨⟨hs.wizard, setAssoc hs.validationErrors q.id
          (validateAnswer q (lookupAssoc hs.wizard.answers q.id) (some hs.wizard.answers))⟩,
          ?_, rfl⟩
        simp only [nextStep, hfind]
        rw [if_pos herr]
      · refine ⟨hs, ?_, rfl⟩
        simp only [nextStep, hfind]
        rw [if_neg herr, if_pos (by omega)]
  · rw [previousStep, if_pos (by omega)]
  · rw [goToStep, if_pos]
    rcases hout with h | h <;> simp [h]
  · rw [goToStep, if_neg (by simp; omega)]
    rw [if_pos]
    unfold stateCompliant
    simp only [decide_eq_true_eq]
    exact layerProgression_derived step hlo hhi

/-- C3 witness: refusal at step 15 and step 1, rejection of step 16, and a
direct jump to step 3. -/
theorem step_bounds_and_jump_witness :
    (∃ hs', nextStep [] 0 ⟨⟨js "w", 15, 3, [], 0, 0, false, false, []⟩, []⟩ =
      Except.ok (false, hs') ∧
      hs'.wizard = (⟨⟨js "w", 15, 3, [], 0, 0, false, false, []⟩, []⟩ : HookState).wizard) ∧
    previousStep 0 ⟨initState (js "w") 0, []⟩ = (false, ⟨initState (js "w") 0, []⟩) ∧
    goToStep 16 0 ⟨⟨js "w", 15, 3, [], 0, 0, false, false, []⟩, []⟩ =
      Except.ok (false, ⟨⟨js "w", 15, 3, [], 0, 0, false, false, []⟩, []⟩) ∧
    goToStep 3 0 ⟨⟨js "w", 15, 3, [], 0, 0, false, false, []⟩, []⟩ =
      Except.ok (true, ⟨⟨js "w", 3, 1, [], 0, 0, false, false, []⟩, []⟩) := by
  have h15 := (step_bounds_and_jump [] 0 ⟨⟨js "w", 15, 3, [], 0, 0, false, false, []⟩, []⟩).1 rfl
  have h1 := (step_bounds_and_jump [] 0 ⟨initState (js "w") 0, []⟩).2.1 rfl
  have hout := (step_bounds_and_jump [] 0
    ⟨⟨js "w", 15, 3, [], 0, 0, false, false, []⟩, []⟩).2.2.1 16 (by norm_num)
  have hin := (step_bounds_and_jump [] 0
    ⟨⟨js "w", 15, 3, [], 0, 0, false, false, []⟩, []⟩).2.2.2 3 (by norm_num) (by norm_num)
  exact ⟨h15, h1, hout, hin⟩

/-- C8 counterexample: for a required question declaring an always-false
`showIf`, `validateAnswer` with an absent value still returns the `REQUIRED`
error — the early return on an empty value fires before the visibility
override — contradicting the claim that the error list is empty regardless of
other checks. -/
theorem showIf_required_counterexample :
    cxHiddenQ.required = true ∧
    cxHiddenQ.showIf = some cxShowIfFalse ∧
    (∀ a : Answers, cxShowIfFalse a = false) ∧
    validateAnswer cxHiddenQ none (some []) =
      [⟨js "q1", js "validation.required", js "REQUIRED"⟩] ∧
    validateAnswer cxHiddenQ none (some []) ≠ [] := by
  refine ⟨rfl, rfl, fun a => rfl, rfl, by decide⟩

/-- C8 amended: for a question declaring a conditional-visibility predicate
that evaluates false over the supplied answer map, `validateAnswer` returns an
empty error list whenever the value passes the non-empty (`validateRequired`)
check; with an empty or absent value the early return yields the usual
required-check result instead, so the override does not reach that case. -/
theorem showIf_false_no_errors (q : QuestionDefinition) (p : Answers → Bool)
    (value : Option AnswerValue) (ans : Answers)
    (hshow : q.showIf = some p) (hfalse : p ans = false)
    (hval : validateRequired value = true) :
    validateAnswer q value (some ans) = [] := by
  cases value with
  | none => simp [validateRequired] at hval
  | some v =>
      have hv : validateRequiredV v = true := by
        simpa [validateRequired] using hval
      simp only [validateAnswer, validateRequired, hv, hshow, hfalse,
        Bool.not_true, Bool.and_false, Bool.false_eq_true, if_false,
        Bool.not_false, if_true]

/-- C8 witness: the hidden question with a non-empty answer validates to the
empty error list. -/
theorem showIf_false_no_errors_witness :
    validateAnswer cxHiddenQ (some (.str (js "hi"))) (some []) = [] :=
  showIf_false_no_errors cxHiddenQ cxShowIfFalse (some (.str (js "hi"))) []
    rfl rfl (by decide)

theorem loadDraft_found (hash : JStr → JStr) (now : Int) (wizardId : JStr)
    (store : Store) (draft : DraftStorage)
    (hget : getItem store (draftKeyStem ++ wizardId) = some draft) :
    (draft.metadata.expiresAt < now →
      loadDraft hash now wizardId store =
        Except.ok (none, removeItem store (draftKeyStem ++ wizardId))) ∧
    (now ≤ draft.metadata.expiresAt → checksumOkB hash draft = true →
      loadDraft hash now wizardId store = Except.ok (some draft.data, store)) := by
  constructor
  · intro hexp
    simp only [loadDraft, hget]
    rw [if_pos hexp]
  · intro hlive hchk
    simp only [loadDraft, hget]
    rw [if_neg (by omega)]
    rcases hc : draft.metadata.checksum with _ | c
    · rfl
    · unfold checksumOkB at hchk
      rw [hc] at hchk
      simp only [decide_eq_true_eq] at hchk
      simp [hchk]

theorem mem_insertDesc {m x : DraftMetadata} {l : List DraftMetadata}
    (h : m ∈ insertDesc x l) : m = x ∨ m ∈ l := by
  induction l with
  | nil => simpa [insertDesc] using h
  | cons hd tl ih =>
      by_cases hle : x.savedAt ≤ hd.savedAt
      · rw [insertDesc, if_pos hle] at h
        rcases List.mem_cons.mp h with h | h
        · exact Or.inr (by simp [h])
        · rcases ih h with h' | h'
          · exact Or.inl h'
          · exact Or.inr (List.mem_cons_of_mem _ h')
      · rw [insertDesc, if_neg hle] at h
        rcases List.mem_cons.mp h with h | h
        · exact Or.inl h
        · rcases List.mem_cons.mp h with h' | h'
          · exact Or.inr (by simp [h'])
          · exact Or.inr (List.mem_cons_of_mem _ h')

theorem mem_sortDesc {m : DraftMetadata} {l : List DraftMetadata}
    (h : m ∈ sortDesc l) : m ∈ l := by
  induction l with
  | nil => simpa [sortDesc] using h
  | cons hd tl ih =>
      rw [sortDesc] at h
      rcases mem_insertDesc h with h' | h'
      · simp [h']
      · exact List.mem_cons_of_mem _ (ih h')

theorem listDraftsLoop_unexpired (now : Int) :
    ∀ (fuel : Nat) (store : Store) (i : Nat) (acc : List DraftMetadata),
      (∀ m ∈ acc, now ≤ m.expiresAt) →
      ∀ m ∈ (listDraftsLoop now fuel store i acc).1, now ≤ m.expiresAt := by
  intro fuel
  induction fuel with
  | zero => intro store i acc hacc m hm; exact hacc m hm
  | succ fuel ih =>
      intro store i acc hacc m hm
      rw [listDraftsLoop] at hm
      rcases hgi : store[i]? with _ | ⟨key, draft⟩
      · rw [hgi] at hm; exact hacc m hm
      · rw [hgi] at hm
        dsimp only at hm
        by_cases hpre : draftKeyStem.isPrefixOf key
        · rw [if_pos hpre] at hm
          by_cases hexp : now ≤ draft.metadata.expiresAt
          · rw [if_pos hexp] at hm
            refine ih store (i + 1) _ ?_ m hm
            intro m' hm'
            rcases List.mem_append.mp hm' with h' | h'
            · exact hacc m' h'
            · simp only [List.mem_singleton] at h'
              subst h'
              exact hexp
          · rw [if_neg hexp] at hm
            exact ih (removeItem store key) (i + 1) acc hacc m hm
        · rw [if_neg hpre] at hm
          exact ih store (i + 1) acc hacc m hm

/-- C4 counterexample: with two adjacent expired drafts, `listDrafts` removes
the first but — because the scan removes entries by live index while
iterating — skips and does not prune the second expired draft, which survives
in storage, contradicting the claim that every expired draft is pruned along
the way.  (Both are omitted from the returned list.) -/
theorem listDrafts_prune_counterexample :
    cxDraftA.metadata.expiresAt < cxNow ∧
    cxDraftB.metadata.expiresAt < cxNow ∧
    (listDrafts cxNow cxStore).1 = [] ∧
    (listDrafts cxNow cxStore).2 = [(draftKeyStem ++ js "b", cxDraftB)] ∧
    getItem (listDrafts cxNow cxStore).2 (draftKeyStem ++ js "b") = some cxDraftB := by
  refine ⟨by decide, by decide, rfl, rfl, rfl⟩

/-- C4 amended: `loadDraft` reports an expired draft as not-found and deletes
the stored entry, and returns an unexpired, checksum-valid draft normally
(drafts written by `saveDraft` carry `expiresAt = savedAt + 24h`);
`listDrafts` omits every expired draft from its result, and prunes the expired
entries it visits, but its live-index scan skips the entry immediately
following a removed one, so such an expired entry is not pruned until a later
access. -/
theorem draft_expiry_behavior (hash : JStr → JStr) (now : Int) (wizardId : JStr)
    (store : Store) :
    (∀ draft, getItem store (draftKeyStem ++ wizardId) = some draft →
      (draft.metadata.expiresAt < now →
        loadDraft hash now wizardId store =
          Except.ok (none, removeItem store (draftKeyStem ++ wizardId))) ∧
      (now ≤ draft.metadata.expiresAt → checksumOkB hash draft = true →
        loadDraft hash now wizardId store = Except.ok (some draft.data, store))) ∧
    (∀ m ∈ (listDrafts now store).1, now ≤ m.expiresAt) ∧
    (∀ (t : Int) (d : WizardData) (store2 : Store),
      saveDraft hash t wizardId d store = Except.ok store2 →
      ∃ dr, getItem store2 (draftKeyStem ++ wizardId) = some dr ∧
        dr.data = d ∧ dr.metadata.savedAt = t ∧
        dr.metadata.expiresAt = t + retentionMs) := by
  refine ⟨fun draft hget => loadDraft_found hash now wizardId store draft hget,
    fun m hm => ?_, fun t d store2 hsave => ?_⟩
  · have hm' := mem_sortDesc (by simpa [listDrafts] using hm)
    exact listDraftsLoop_unexpired now (store.length + 1) store 0 [] (by simp) m hm'
  · simp only [saveDraft] at hsave
    split at hsave
    · simp only [Except.ok.injEq] at hsave
      rw [← hsave]
      exact ⟨_, getItem_setItem _ _ _, rfl, rfl, rfl⟩
    · split at hsave
      · simp only [Except.ok.injEq] at hsave
        rw [← hsave]
        exact ⟨_, getItem_setItem _ _ _, rfl, rfl, rfl⟩
      · exact absurd hsave (by simp)

set_option maxRecDepth 100000 in
/-- C4 witness: the expired draft in a one-entry store is reported not-found
by `loadDraft` and deleted, and a save into the empty store yields an entry
expiring 24 hours after its save time. -/
theorem draft_expiry_behavior_witness :
    loadDraft cxHash cxNow (js "a") cxSingleStore = Except.ok (none, []) ∧
    (∃ dr, getItem cxSavedStore (draftKeyStem ++ js "w5") = some dr ∧
      dr.data = cxSession ∧ dr.metadata.savedAt = 0 ∧
      dr.metadata.expiresAt = 0 + retentionMs) := by
  constructor
  · have h := ((draft_expiry_behavior cxHash cxNow (js "a") cxSingleStore).1
      cxDraftA rfl).1 (by decide)
    simpa [cxSingleStore, removeItem] using h
  · exact (draft_expiry_behavior cxHash cxNow (js "w5") []).2.2 0 cxSession
      cxSavedStore (by rfl)

/-- C5: a `saveDraft` that succeeds, immediately followed by `loadDraft` of
the same id (hence within the 24-hour window), returns exactly the session
that was saved — timestamps being the integer model of their ISO-8601 form —
with no checksum/corruption error raised (`.ok`, not `.error`). -/
theorem saveDraft_loadDraft_roundtrip (hash : JStr → JStr) (now : Int)
    (wizardId : JStr) (d : WizardData) (store store2 : Store)
    (hsave : saveDraft hash now wizardId d store = Except.ok store2) :
    loadDraft hash now wizardId store2 = Except.ok (some d, store2) := by
  have hload : ∀ s : Store,
      loadDraft hash now wizardId (setItem s (draftKeyStem ++ wizardId)
        ⟨js "1.0", wizardId, d,
         ⟨now, now + retentionMs, some (hash (serializeData d)),
          (detectPII (serializeData d)).hasPII, false⟩⟩) =
      Except.ok (some d, setItem s (draftKeyStem ++ wizardId)
        ⟨js "1.0", wizardId, d,
         ⟨now, now + retentionMs, some (hash (serializeData d)),
          (detectPII (serializeData d)).hasPII, false⟩⟩) := by
    intro s
    simp only [loadDraft, getItem_setItem]
    rw [if_neg (by unfold retentionMs; omega)]
    simp
  simp only [saveDraft] at hsave
  split at hsave
  · simp only [Except.ok.injEq] at hsave
    rw [← hsave]
    exact hload store
  · split at hsave
    · simp only [Except.ok.injEq] at hsave
      rw [← hsave]
      exact hload _
    · exact absurd hsave (by simp)

set_option maxRecDepth 200000 in
/-- C5 witness: saving a concrete session into an empty store and loading it
back at the same instant returns the session. -/
theorem saveDraft_loadDraft_roundtrip_witness :
    saveDraft cxHash 0 (js "w5") cxSession [] = Except.ok cxSavedStore ∧
    loadDraft cxHash 0 (js "w5") cxSavedStore = Except.ok (some cxSession, cxSavedStore) := by
  have hsave : saveDraft cxHash 0 (js "w5") cxSession [] = Except.ok cxSavedStore := by rfl
  exact ⟨hsave, saveDraft_loadDraft_roundtrip cxHash 0 (js "w5") cxSession [] cxSavedStore hsave⟩

/-- C6: `generateOutput` yields an artifact only when the session is complete
and at least 12 answer fields are populated; an incomplete session, or a
complete one with fewer than 12 answers, yields no artifact and the explicit
precondition error naming the insufficiency. -/
theorem generateOutput_preconditions (d : WizardData)
    (questions : List QuestionDefinition) (nowText : JStr) :
    ((generateOutput d questions nowText).1 ≠ none →
      d.isComplete = true ∧ 12 ≤ d.answers.length) ∧
    (d.isComplete = false →
      generateOutput d questions nowText =
        (none, some (js "Wizard must be completed before generating output"))) ∧
    (d.isComplete = true → d.answers.length < 12 →
      generateOutput d questions nowText =
        (none, some (js "Insufficient answers provided (minimum 12 required)"))) := by
  refine ⟨fun hout => ?_, fun hinc => ?_, fun hcomp hfew => ?_⟩
  · by_cases hc : d.isComplete
    · by_cases hn : d.answers.length < 12
      · have hnone : (generateOutput d questions nowText).1 = none := by
          simp only [generateOutput, hc, Bool.not_true, Bool.false_eq_true,
            if_false, if_pos hn]
        exact absurd hnone hout
      · exact ⟨hc, by omega⟩
    · simp only [Bool.not_eq_true] at hc
      have hnone : (generateOutput d questions nowText).1 = none := by
        simp only [generateOutput, hc, Bool.not_false, if_true]
      exact absurd hnone hout
  · simp only [generateOutput, hinc, Bool.not_false, if_true]
  · simp only [generateOutput, hcomp, Bool.not_true, Bool.false_eq_true, if_false, if_pos hfew]

/-- C6 witness: a fresh incomplete session and a complete session with one
answer are both refused with their respective precondition errors. -/
theorem generateOutput_preconditions_witness :
    generateOutput cxIncomplete [] (js "t") =
      (none, some (js "Wizard must be completed before generating output")) ∧
    generateOutput cxFewAnswers [] (js "t") =
      (none, some (js "Insufficient answers provided (minimum 12 required)")) :=
  ⟨(generateOutput_preconditions cxIncomplete [] (js "t")).2.1 rfl,
   (generateOutput_preconditions cxFewAnswers [] (js "t")).2.2 rfl (by decide)⟩

/-- C7: every artifact the generator accepts has a summary text whose length
lies in [50, 500]; the length adjustment pads a too-short interpolation with
the generic suffix and truncates a too-long one to exactly 500 characters
ending in the ellipsis marker. -/
theorem summary_length_window (d : WizardData) (questions : List QuestionDefinition)
    (nowText : JStr) (out : OutputSpecification) (err : Option JStr)
    (hgen : generateOutput d questions nowText = (some out, err)) :
    (50 ≤ out.summary.text.length ∧ out.summary.text.length ≤ 500) ∧
    (∀ s : JStr, s.length < 50 →
      clampSummary s = s ++ js "を目的とした業務改善システム") ∧
    (∀ s : JStr, 500 < s.length →
      (clampSummary s).length = 500 ∧ js "..." <:+ clampSummary s) := by
  refine ⟨?_, fun s hshort => ?_, fun s hlong => ?_⟩
  · simp only [generateOutput] at hgen
    split at hgen
    · simp at hgen
    · split at hgen
      · simp at hgen
      · split at hgen
        · simp at hgen
        · rename_i hval
          simp only [Prod.mk.injEq, Option.some.injEq] at hgen
          rw [hgen.1] at hval
          simp only [validateOutputStructure, Bool.not_eq_true', Bool.and_eq_true,
            Bool.or_eq_false_iff, decide_eq_false_iff_not, not_lt,
            Bool.not_eq_false] at hval
          exact ⟨hval.1.1.1.2, hval.1.1.2⟩
  · unfold clampSummary
    rw [if_pos hshort]
    rw [if_neg ?hlen]
    case hlen =>
      have hsuf : (js "を目的とした業務改善システム").length = 14 := rfl
      rw [List.length_append, hsuf]
      omega
  · unfold clampSummary
    rw [if_neg (show ¬ List.length s < 50 by omega)]
    rw [if_pos hlong]
    constructor
    · have hdots : (js "...").length = 3 := rfl
      rw [List.length_append, List.length_take, hdots]
      omega
    · exact List.suffix_append _ _

set_option maxRecDepth 400000 in
/-- C7 witness: answering all 15 questions with valid values, completing, and
generating yields a summary text whose length lies in [50, 500]. -/
theorem summary_length_window_witness :
    completeWizard cxCatalog 0 cxPreComplete = (true, ⟨cxDone, []⟩) ∧
    generateOutput cxDone cxCatalog (js "2025-09-06") = (some cxOut, none) ∧
    50 ≤ cxOut.summary.text.length ∧ cxOut.summary.text.length ≤ 500 := by
  have hgen : generateOutput cxDone cxCatalog (js "2025-09-06") = (some cxOut, none) := by
    rfl
  have hb := (summary_length_window cxDone cxCatalog (js "2025-09-06") cxOut none hgen).1
  exact ⟨by rfl, hgen, hb.1, hb.2⟩

theorem length_flatMap_pos {α β : Type} (l : List α) (f : α → List β) :
    0 < (l.flatMap f).length ↔ ∃ x ∈ l, f x ≠ [] := by
  induction l with
  | nil => simp
  | cons hd tl ih =>
      simp only [List.flatMap_cons, List.length_append, List.mem_cons]
      constructor
      · intro h
        by_cases hh : f hd = []
        · rw [hh] at h
          simp only [List.length_nil, Nat.zero_add] at h
          obtain ⟨x, hx, hfx⟩ := ih.mp h
          exact ⟨x, Or.inr hx, hfx⟩
        · exact ⟨hd, Or.inl rfl, hh⟩
      · rintro ⟨x, hx | hx, hfx⟩
        · subst hx
          have : 0 < (f x).length := List.length_pos.mpr hfx
          omega
        · have := ih.mpr ⟨x, hx, hfx⟩
          omega

/-- C9: `detectPII` reports `hasPII = true` exactly when at least one of the
seven fixed patterns has a match in the input; the confidence equals
`min(matchCount * 0.3, 1)` on a match and 0 otherwise; and on the input
"contact me at test@example.com" it reports `hasPII = true` with `email`
among the matched categories. -/
theorem detectPII_spec (text : JStr) :
    ((detectPII text).hasPII = true ↔ ∃ p ∈ piiPatterns, execAll p.2 text ≠ []) ∧
    ((detectPII text).hasPII = true ↔ 0 < (detectPII text).locations.length) ∧
    (detectPII text).confidence =
      (if 0 < (detectPII text).locations.length then
        min (((detectPII text).locations.length : Rat) * (3 / 10 : Rat)) 1 else 0) ∧
    (detectPII (js "contact me at test@example.com")).hasPII = true ∧
    js "email" ∈ (detectPII (js "contact me at test@example.com")).types := by
  refine ⟨?_, by simp [detectPII], by rfl, by decide, by decide⟩
  show (decide (0 < (piiPatterns.flatMap
    (fun pat => (execAll pat.2 text).map
      (fun m => (⟨pat.1, m.1, m.1 + m.2, (text.drop m.1).take m.2⟩ : PIILocation)))).length) = true)
    ↔ ∃ p ∈ piiPatterns, execAll p.2 text ≠ []
  rw [decide_eq_true_eq, length_flatMap_pos]
  constructor
  · rintro ⟨p, hp, hne⟩
    refine ⟨p, hp, fun h => hne ?_⟩
    rw [h, List.map_nil]
  · rintro ⟨p, hp, hne⟩
    refine ⟨p, hp, fun h => hne ?_⟩
    exact List.map_eq_nil_iff.mp h

/-- C10: `reset` replaces the in-memory session with a brand-new one (fresh
id, step 1, layer 1, empty answers, empty validation errors, incomplete) and
performs no storage operation — the store passes through `resetApp`
unchanged — so a draft persisted under the old session id stays retrievable
by `loadDraft` until its 24-hour expiry, after which `loadDraft` reports it
not-found and deletes it, or until an explicit `deleteDraft` removes it. -/
theorem reset_no_storage_effect (newId : JStr) (now : Int) (hs : HookState)
    (store : Store) :
    resetApp newId now (hs, store) = (⟨initState newId now, []⟩, store) ∧
    (initState newId now).currentStep = 1 ∧
    (initState newId now).currentLayer = 1 ∧
    (initState newId now).answers = [] ∧
    (initState newId now).isComplete = false ∧
    (resetWizard newId now hs).validationErrors = [] ∧
    (∀ (hash : JStr → JStr) (oldId : JStr) (draft : DraftStorage),
      getItem store (draftKeyStem ++ oldId) = some draft →
      (now ≤ draft.metadata.expiresAt → checksumOkB hash draft = true →
        loadDraft hash now oldId store = Except.ok (some draft.data, store)) ∧
      (draft.metadata.expiresAt < now →
        loadDraft hash now oldId store =
          Except.ok (none, removeItem store (draftKeyStem ++ oldId)))) ∧
    (∀ (hash : JStr → JStr) (oldId : JStr),
      loadDraft hash now oldId (deleteDraft oldId store) =
        Except.ok (none, deleteDraft oldId store)) := by
  refine ⟨rfl, rfl, rfl, rfl, rfl, rfl, fun hash oldId draft hget => ?_, fun hash oldId => ?_⟩
  · have h := loadDraft_found hash now oldId store draft hget
    exact ⟨h.2, h.1⟩
  · have hnone : getItem (deleteDraft oldId store) (draftKeyStem ++ oldId) = none :=
      getItem_removeItem store (draftKeyStem ++ oldId)
    simp only [loadDraft, hnone]

/-- C10 witness: resetting with a saved draft in the store leaves the store
intact, the old draft loads back, and an explicit delete removes it. -/
theorem reset_no_storage_effect_witness :
    resetApp (js "fresh") 5 (⟨cxSession, []⟩, cxSavedStore) =
      (⟨initState (js "fresh") 5, []⟩, cxSavedStore) ∧
    loadDraft cxHash 0 (js "w5") cxSavedStore =
      Except.ok (some cxSession, cxSavedStore) ∧
    loadDraft cxHash 0 (js "w5") (deleteDraft (js "w5") cxSavedStore) =
      Except.ok (none, deleteDraft (js "w5") cxSavedStore) := by
  refine ⟨(reset_no_storage_effect (js "fresh") 5 ⟨cxSession, []⟩ cxSavedStore).1, ?_, ?_⟩
  · have h := ((reset_no_storage_effect (js "fresh") 0 ⟨cxSession, []⟩ cxSavedStore).2.2.2.2.2.2.1
      cxHash (js "w5")
      ⟨js "1.0", js "w5", cxSession,
       ⟨0, retentionMs, some (cxHash (serializeData cxSession)),
        (detectPII (serializeData cxSession)).hasPII, false⟩⟩ rfl).1
    exact h (by decide) (by rfl)
  · exact (reset_no_storage_effect (js "fresh") 0 ⟨cxSession, []⟩ cxSavedStore).2.2.2.2.2.2.2
      cxHash (js "w5")
